import Mathlib

/-!
Verification of the phone-number mode service in `server.js` (repository
`Ct1869/N8nbackend`).  The file contains two near-identical revisions of the
same Express/Mongoose application; we embed the request handlers, the
`PhoneMode` store, the `normalize` helper and the seeding routine as pure
Lean functions and prove the specified properties about them.

Modelling decisions:
* JavaScript values that can flow into the handlers (request-body fields) are
  modelled by `JSVal` (undefined, null, string, integer number), with JS
  truthiness and string coercion embedded faithfully.
* The MongoDB collection is a `Store`: a list of records plus an id counter
  and a logical clock used for the `createdAt` / `updatedAt` timestamps.
* Fallible storage operations are modelled where a claim needs them
  (`seedRunE` takes an oracle telling which `updateOne` calls throw).
-/

set_option linter.unusedVariables false

namespace PhoneService

/-! ## JavaScript values -/

/-- A JavaScript value as it can appear in a request-body field:
`undefined`, `null`, a string, or an (integer) number. -/
inductive JSVal where
  | vundefined
  | vnull
  | vstr (s : String)
  | vnum (n : Int)
deriving Repr, DecidableEq

/-- JS truthiness: `undefined`, `null`, the empty string and `0` are falsy. -/
def truthy : JSVal → Bool
  | .vundefined => false
  | .vnull => false
  | .vstr s => !(s == "")
  | .vnum n => n != 0

/-- JS `String(v)` / `.toString()` coercion. -/
def toStringJS : JSVal → String
  | .vundefined => "undefined"
  | .vnull => "null"
  | .vstr s => s
  | .vnum n => toString n

/-- JS `a || b`: `a` if truthy, otherwise `b`. -/
def jsOr (a b : JSVal) : JSVal := if truthy a then a else b

/-- JS `String.prototype.trim`: strip leading and trailing whitespace
(embedded as a structural computation on the character list so that it
evaluates inside the kernel). -/
def trimJS (s : String) : String :=
  ⟨(((s.data.dropWhile Char.isWhitespace).reverse.dropWhile Char.isWhitespace).reverse)⟩

/-- Embeds `function normalize(num) \x7b return (num || "").toString().trim(); \x7d`
(`server.js` line 103 and line 447). -/
def normalize (v : JSVal) : String :=
  trimJS (toStringJS (jsOr v (.vstr "")))

/-- Embeds `["CALL", "OTP"].includes(mode)`: the strict-equality membership
test used by the handlers to validate a mode value. -/
def includesMode (v : JSVal) : Bool :=
  v == .vstr "CALL" || v == .vstr "OTP"

/-- The first truthy value of an ordered candidate list (`undefined` when
none is truthy): the explicit priority-order selection the spec describes
for the Lookup candidates. -/
def firstTruthy (l : List JSVal) : JSVal :=
  (l.find? truthy).getD .vundefined

/-! ## The PhoneMode store -/

/-- A persisted `PhoneMode` document: `number` is the key, `mode` the stored
mode string, with mongoose-style timestamps (modelled on a logical clock). -/
structure Record where
  id : Nat
  number : String
  mode : String
  createdAt : Nat
  updatedAt : Nat
deriving Repr, DecidableEq

/-- The collection state: the documents, the next fresh id, and the logical
clock used for timestamps. -/
structure Store where
  records : List Record
  nextId : Nat
  now : Nat
deriving Repr, DecidableEq

def emptyStore : Store := ⟨[], 0, 0⟩

/-- `PhoneMode.findOne(\x7b number \x7d)`: first document with the given number. -/
def findByNumber (s : Store) (n : String) : Option Record :=
  s.records.find? (fun r => r.number == n)

/-- `new PhoneMode(\x7b number, mode \x7d).save()`: appends a fresh document with
a new id and both timestamps set to the current clock. -/
def insertRecord (s : Store) (n m : String) : Record × Store :=
  let r : Record := ⟨s.nextId, n, m, s.now, s.now⟩
  (r, ⟨s.records ++ [r], s.nextId + 1, s.now + 1⟩)

/-- Helper for `updateOne` with `$set: \x7b mode \x7d`: updates the first document
whose `number` matches, setting `mode` and `updatedAt` only. -/
def updateFirstMode : List Record → String → String → Nat → List Record
  | [], _, _, _ => []
  | r :: rs, n, m, t =>
    if r.number = n then { r with mode := m, updatedAt := t } :: rs
    else r :: updateFirstMode rs n m t

/-- Helper for `findByIdAndUpdate(id, \x7b mode \x7d)`: updates the first document
whose `id` matches, setting `mode` and `updatedAt` only. -/
def updateFirstById : List Record → Nat → String → Nat → List Record
  | [], _, _, _ => []
  | r :: rs, i, m, t =>
    if r.id = i then { r with mode := m, updatedAt := t } :: rs
    else r :: updateFirstById rs i m t

/-- Helper for `findByIdAndDelete(id)`: removes the first document whose `id`
matches. -/
def removeFirstById : List Record → Nat → List Record
  | [], _ => []
  | r :: rs, i => if r.id = i then rs else r :: removeFirstById rs i

/-- Mongo ObjectId cast of a raw request id: ids are modelled as decimal
strings; anything that does not parse is a `CastError` (caught as a 500).
The parse is written structurally so that it evaluates in the kernel. -/
def castId : JSVal → Option Nat
  | .vstr s =>
    if s.data ≠ [] ∧ s.data.all Char.isDigit then
      some (s.data.foldl (fun acc c => acc * 10 + (c.toNat - 48)) 0)
    else none
  | _ => none

/-! ## Seeder -/

/-- Embeds one `PhoneMode.updateOne(\x7b number \x7d, \x7b $set: \x7b mode \x7d \x7d, \x7b upsert: true \x7d)`
(`server.js` lines 78-82 / 434-438): if a document with the number exists its
mode (and `updatedAt`) is overwritten in place, otherwise a fresh document is
inserted. -/
def upsertMode (s : Store) (n m : String) : Store :=
  match findByNumber s n with
  | some _ => ⟨updateFirstMode s.records n m s.now, s.nextId, s.now + 1⟩
  | none => (insertRecord s n m).2

/-- The failure-free seeding loop of `seedDB`: apply `upsertMode` to each
pair, in list order. -/
def seedList (ps : List (String × String)) (s : Store) : Store :=
  ps.foldl (fun s p => upsertMode s p.1 p.2) s

/-- The seed pairs of `server.js` (lines 65-73 / 421-429). -/
def seedNumbers : List (String × String) :=
  [("+17753055823", "CALL"), ("+16693454835", "CALL"), ("+19188183039", "CALL"),
   ("+15088127382", "CALL"), ("+18722965039", "CALL"), ("+14172218933", "CALL"),
   ("+19191919191", "OTP")]

/-- Embeds `seedDB` with fallible storage: `fails p = true` means the
`updateOne` call for pair `p` throws.  The whole `for` loop of `seedDB` sits
inside a single `try \x7b ... \x7d catch`, so the first throw leaves the loop: the
store keeps the upserts already performed and the remaining pairs are never
processed (the catch only logs). -/
def seedRunE (fails : String × String → Bool) : List (String × String) → Store → Store
  | [], s => s
  | p :: ps, s => if fails p then s else seedRunE fails ps (upsertMode s p.1 p.2)

/-! ## Request handlers -/

/-- The response of a mutating handler: either the affected record (the JSON
`\x7b success: true, data \x7d` case) or an error with its HTTP status code. -/
inductive HResp where
  | ok (data : Record)
  | err (status : Nat) (msg : String)
deriving Repr, DecidableEq

/-- Embeds the `POST /add-number` handler (`server.js` lines 172-218, the
revision that carries the empty-normalized-number check; the spec adopts this
stricter variant).  Returns the response and the new store. -/
def addNumber (s : Store) (number mode : JSVal) : HResp × Store :=
  if !truthy number || !truthy mode then
    (.err 400 "Number and mode are required", s)
  else if normalize number = "" then (.err 400 "Invalid number format", s)
  else if !includesMode mode then (.err 400 "Mode must be CALL or OTP", s)
  else
    match findByNumber s (normalize number) with
    | some _ => (.err 400 "Number already exists", s)
    | none =>
      (.ok (insertRecord s (normalize number) (toStringJS mode)).1,
       (insertRecord s (normalize number) (toStringJS mode)).2)

/-- The request-body and query fields read by the `POST /lookup` handler. -/
structure LookupReq where
  bCalled : JSVal
  qCalled : JSVal
  bTo : JSVal
  qTo : JSVal
  bFrom : JSVal
  qFrom : JSVal
  bCallSid : JSVal
  qCallSid : JSVal
deriving Repr, DecidableEq

/-- The JSON body of a `POST /lookup` response. -/
structure LookupResp where
  calledNumber : String
  mode : String
  fromVal : JSVal
  callSid : JSVal
deriving Repr, DecidableEq

/-- The number `POST /lookup` queries:
`normalize((req.body.Called || req.query.Called) || (req.body.To || req.query.To))`
(`server.js` lines 138-140 / 497-499). -/
def lookupCalledNumber (req : LookupReq) : String :=
  normalize (jsOr (jsOr req.bCalled req.qCalled) (jsOr req.bTo req.qTo))

/-- Embeds the `POST /lookup` handler (`server.js` lines 136-158 / 495-511):
queries the store for the selected number and answers with the found mode or
the sentinel `"UNKNOWN"`, passing `From` / `CallSid` through unchanged. -/
def lookupHandler (s : Store) (req : LookupReq) : LookupResp :=
  { calledNumber := lookupCalledNumber req
    mode := match findByNumber s (lookupCalledNumber req) with
      | some r => r.mode
      | none => "UNKNOWN"
    fromVal := jsOr req.bFrom req.qFrom
    callSid := jsOr req.bCallSid req.qCallSid }

/-- Embeds the `PUT /update-mode` handler (`server.js` lines 221-254 /
538-550): validates presence and mode, then `findByIdAndUpdate(id, \x7b mode \x7d,
\x7b new: true \x7d)` (404 when no document matches; an uncastable id surfaces as
the handler's 500). -/
def updateModeH (s : Store) (id mode : JSVal) : HResp × Store :=
  if !truthy id || !truthy mode then (.err 400 "ID and mode are required", s)
  else if !includesMode mode then (.err 400 "Mode must be CALL or OTP", s)
  else
    match castId id with
    | none => (.err 500 "Failed to update mode", s)
    | some i =>
      match s.records.find? (fun r => r.id == i) with
      | none => (.err 404 "Number not found", s)
      | some r =>
        (.ok { r with mode := toStringJS mode, updatedAt := s.now },
         ⟨updateFirstById s.records i (toStringJS mode) s.now, s.nextId, s.now + 1⟩)

/-- Embeds the `DELETE /delete-number/:id` handler (`server.js` lines 257-282
/ 552-561): `findByIdAndDelete(id)`, 404 when no document matches. -/
def deleteH (s : Store) (id : JSVal) : HResp × Store :=
  if !truthy id then (.err 400 "ID is required", s)
  else
    match castId id with
    | none => (.err 500 "Failed to delete number", s)
    | some i =>
      match s.records.find? (fun r => r.id == i) with
      | none => (.err 404 "Number not found", s)
      | some r => (.ok r, ⟨removeFirstById s.records i, s.nextId, s.now⟩)

/-- One element of the `numbers` array of a `POST /bulk-add` request. -/
structure BulkItem where
  number : JSVal
  mode : JSVal
deriving Repr, DecidableEq

/-- The `results` object a `POST /bulk-add` response accumulates: added
records, error descriptors (raw `item.number` with the message) and skipped
descriptors (normalized number with the reason). -/
structure BulkResults where
  added : List Record
  errors : List (JSVal × String)
  skipped : List (String × String)
deriving Repr, DecidableEq

/-- One iteration of the `for (const item of numbers)` loop of the
`POST /bulk-add` handler (`server.js` lines 580-589): empty normalized
number → error entry; `item.mode` not in `["CALL", "OTP"]` → error entry;
number already present → skipped entry; otherwise the item is saved with
`mode: item.mode || "CALL"` and pushed onto `added`. -/
def bulkStep (acc : BulkResults × Store) (item : BulkItem) : BulkResults × Store :=
  if normalize item.number = "" then
    ({ acc.1 with errors := acc.1.errors ++ [(item.number, "Invalid")] }, acc.2)
  else if !includesMode item.mode then
    ({ acc.1 with errors := acc.1.errors ++ [(item.number, "Invalid mode")] }, acc.2)
  else
    match findByNumber acc.2 (normalize item.number) with
    | some _ =>
      ({ acc.1 with skipped := acc.1.skipped ++ [(normalize item.number, "Exists")] }, acc.2)
    | none =>
      ({ acc.1 with added := acc.1.added ++
          [(insertRecord acc.2 (normalize item.number)
              (toStringJS (jsOr item.mode (.vstr "CALL")))).1] },
       (insertRecord acc.2 (normalize item.number)
         (toStringJS (jsOr item.mode (.vstr "CALL")))).2)

/-- Embeds the `POST /bulk-add` handler body (`server.js` lines 575-595),
given that the request supplied an array: processes the items in order,
isolating each item's outcome. -/
def bulkAdd (s : Store) (items : List BulkItem) : BulkResults × Store :=
  items.foldl bulkStep (⟨[], [], []⟩, s)

/-- The aggregates computed by the `GET /stats` handler. -/
structure Stats where
  total : Nat
  call : Nat
  otp : Nat
deriving Repr, DecidableEq

/-- Embeds the `GET /stats` handler (`server.js` lines 285-301 / 563-573):
`countDocuments()` in total and filtered by each mode. -/
def statsOf (s : Store) : Stats :=
  ⟨s.records.length,
   s.records.countP (fun r => r.mode == "CALL"),
   s.records.countP (fun r => r.mode == "OTP")⟩

/-! ## Reachable states (public operations from the empty store) -/

/-- A public mutating operation of the service, as named by the spec:
Add, BulkAdd, UpdateMode, Delete and the Seeder (which seeds the program's
fixed `seedNumbers` list). -/
inductive Op where
  | add (number mode : JSVal)
  | bulk (items : List BulkItem)
  | update (id mode : JSVal)
  | del (id : JSVal)
  | seed
deriving Repr

/-- The store produced by one public operation (responses projected away). -/
def applyOp (s : Store) : Op → Store
  | .add n m => (addNumber s n m).2
  | .bulk items => (bulkAdd s items).2
  | .update i m => (updateModeH s i m).2
  | .del i => (deleteH s i).2
  | .seed => seedList seedNumbers s

/-- The store reached by running a sequence of public operations against the
initially empty collection. -/
def runOps (ops : List Op) : Store := ops.foldl applyOp emptyStore

/-- Every persisted document carries one of the two enumerated modes. -/
def ModesOK (s : Store) : Prop :=
  ∀ r ∈ s.records, r.mode = "CALL" ∨ r.mode = "OTP"

/-! ## Observable content of a store

For the seeder-idempotence claim the observable state is the list of
`(number, mode)` pairs of the documents (ids and timestamps are not part of
the claim).  The seeder acts on this observation like a pure operation on a
list of pairs, which the following definitions capture. -/

/-- The `(number, mode)` observation of a store. -/
def obs (s : Store) : List (String × String) :=
  s.records.map (fun r => (r.number, r.mode))

/-- Whether some pair of the list has the given first component. -/
def hasKey (l : List (String × String)) (n : String) : Bool :=
  l.any (fun p => p.1 == n)

/-- Replace the second component of the first pair whose key matches. -/
def setFirst : List (String × String) → String → String → List (String × String)
  | [], _, _ => []
  | p :: l, n, m => if p.1 = n then (p.1, m) :: l else p :: setFirst l n m

/-- The action of `upsertMode` on the observation: overwrite the mode of the
first matching pair, or append a new pair. -/
def obsUpsert (l : List (String × String)) (n m : String) : List (String × String) :=
  if hasKey l n then setFirst l n m else l ++ [(n, m)]

/-- The action of a full seeding run on the observation. -/
def obsSeed (ps : List (String × String)) (l : List (String × String)) :
    List (String × String) :=
  ps.foldl (fun l p => obsUpsert l p.1 p.2) l

/-- The same run with every step an overwrite (no appends). -/
def setFold (ps : List (String × String)) (l : List (String × String)) :
    List (String × String) :=
  ps.foldl (fun l p => setFirst l p.1 p.2) l

end PhoneService

namespace PhoneService

/-! ## Lemmas: the observation of seeding -/

theorem obs_updateFirstMode (l : List Record) (n m : String) (t : Nat) :
    (updateFirstMode l n m t).map (fun r => (r.number, r.mode)) =
      setFirst (l.map (fun r => (r.number, r.mode))) n m := by
  induction l with
  | nil => rfl
  | cons r rs ih =>
    by_cases h : r.number = n <;> simp [updateFirstMode, setFirst, h, ih]

theorem hasKey_obs_list (l : List Record) (n : String) :
    hasKey (l.map (fun r => (r.number, r.mode))) n =
      (l.find? (fun r => r.number == n)).isSome := by
  induction l with
  | nil => rfl
  | cons r rs ih =>
    cases h : r.number == n with
    | true => simp [hasKey, List.find?_cons, h]
    | false =>
      simp only [hasKey, List.map_cons, List.any_cons, List.find?_cons, h, Bool.false_or]
      simpa [hasKey] using ih

theorem hasKey_obs (s : Store) (n : String) :
    hasKey (obs s) n = (findByNumber s n).isSome :=
  hasKey_obs_list s.records n

theorem obs_upsertMode (s : Store) (n m : String) :
    obs (upsertMode s n m) = obsUpsert (obs s) n m := by
  cases hf : findByNumber s n with
  | none =>
    have hk : hasKey (obs s) n = false := by rw [hasKey_obs, hf]; rfl
    simp only [upsertMode, hf, obsUpsert, hk, Bool.false_eq_true, if_false]
    simp [obs, insertRecord]
  | some r =>
    have hk : hasKey (obs s) n = true := by rw [hasKey_obs, hf]; rfl
    simp only [upsertMode, hf, obsUpsert, hk, if_true]
    simpa [obs] using obs_updateFirstMode s.records n m s.now

theorem obs_seedList (ps : List (String × String)) (s : Store) :
    obs (seedList ps s) = obsSeed ps (obs s) := by
  induction ps generalizing s with
  | nil => rfl
  | cons p ps ih =>
    show obs (seedList ps (upsertMode s p.1 p.2)) =
      obsSeed ps (obsUpsert (obs s) p.1 p.2)
    rw [ih, obs_upsertMode]

theorem setFirst_cons_eq (p : String × String) (l : List (String × String))
    (n m : String) (h : p.1 = n) : setFirst (p :: l) n m = (p.1, m) :: l := by
  simp [setFirst, h]

theorem setFirst_cons_ne (p : String × String) (l : List (String × String))
    (n m : String) (h : ¬ p.1 = n) : setFirst (p :: l) n m = p :: setFirst l n m := by
  simp [setFirst, h]

theorem hasKey_cons (p : String × String) (l : List (String × String)) (n : String) :
    hasKey (p :: l) n = (p.1 == n || hasKey l n) := rfl

theorem hasKey_append (l l2 : List (String × String)) (n : String) :
    hasKey (l ++ l2) n = (hasKey l n || hasKey l2 n) := by
  simp [hasKey, List.any_append]

theorem hasKey_setFirst (l : List (String × String)) (n m a : String) :
    hasKey (setFirst l n m) a = hasKey l a := by
  induction l with
  | nil => rfl
  | cons p l ih =>
    by_cases h : p.1 = n
    · rw [setFirst_cons_eq p l n m h, hasKey_cons, hasKey_cons]
    · rw [setFirst_cons_ne p l n m h, hasKey_cons, hasKey_cons, ih]

theorem hasKey_obsUpsert_self (l : List (String × String)) (n m : String) :
    hasKey (obsUpsert l n m) n = true := by
  unfold obsUpsert
  by_cases h : hasKey l n
  · rw [if_pos h, hasKey_setFirst]; exact h
  · rw [if_neg h, hasKey_append]
    have : hasKey [(n, m)] n = true := by simp [hasKey]
    rw [this, Bool.or_true]

theorem hasKey_obsUpsert_mono (l : List (String × String)) (n m a : String)
    (h : hasKey l a = true) : hasKey (obsUpsert l n m) a = true := by
  unfold obsUpsert
  by_cases hk : hasKey l n
  · rw [if_pos hk, hasKey_setFirst]; exact h
  · rw [if_neg hk, hasKey_append, h, Bool.true_or]

theorem hasKey_obsSeed_mono (ps : List (String × String))
    (l : List (String × String)) (a : String)
    (h : hasKey l a = true) : hasKey (obsSeed ps l) a = true := by
  induction ps generalizing l with
  | nil => exact h
  | cons p ps ih => exact ih _ (hasKey_obsUpsert_mono l p.1 p.2 a h)

theorem hasKey_obsSeed_saturated (ps : List (String × String))
    (l : List (String × String)) :
    ∀ p ∈ ps, hasKey (obsSeed ps l) p.1 = true := by
  induction ps generalizing l with
  | nil => intro p hp; cases hp
  | cons q ps ih =>
    intro p hp
    cases hp with
    | head =>
      exact hasKey_obsSeed_mono ps _ q.1 (hasKey_obsUpsert_self l q.1 q.2)
    | tail _ hmem => exact ih _ p hmem

theorem obsSeed_eq_setFold (ps : List (String × String))
    (l : List (String × String))
    (h : ∀ p ∈ ps, hasKey l p.1 = true) : obsSeed ps l = setFold ps l := by
  induction ps generalizing l with
  | nil => rfl
  | cons p ps ih =>
    have hp : hasKey l p.1 = true := h p (List.mem_cons_self p ps)
    show obsSeed ps (obsUpsert l p.1 p.2) = setFold ps (setFirst l p.1 p.2)
    rw [show obsUpsert l p.1 p.2 = setFirst l p.1 p.2 from by simp [obsUpsert, hp]]
    exact ih _ (fun q hq => by rw [hasKey_setFirst]; exact h q (List.mem_cons_of_mem p hq))

theorem setFirst_setFirst_same (l : List (String × String)) (n m m2 : String) :
    setFirst (setFirst l n m) n m2 = setFirst l n m2 := by
  induction l with
  | nil => rfl
  | cons p l ih => by_cases h : p.1 = n <;> simp [setFirst, h, ih]

theorem setFirst_comm (l : List (String × String)) (n m n2 m2 : String)
    (h : n ≠ n2) :
    setFirst (setFirst l n m) n2 m2 = setFirst (setFirst l n2 m2) n m := by
  induction l with
  | nil => rfl
  | cons p l ih =>
    by_cases h1 : p.1 = n
    · have h2 : ¬ p.1 = n2 := by rw [h1]; exact h
      rw [setFirst_cons_eq p l n m h1, setFirst_cons_ne p l n2 m2 h2,
        setFirst_cons_ne (p.1, m) l n2 m2 h2,
        setFirst_cons_eq p (setFirst l n2 m2) n m h1]
    · by_cases h2 : p.1 = n2
      · have h1n : ¬ p.1 = n := h1
        rw [setFirst_cons_ne p l n m h1, setFirst_cons_eq p l n2 m2 h2,
          setFirst_cons_eq p (setFirst l n m) n2 m2 h2,
          setFirst_cons_ne (p.1, m2) l n m h1]
      · rw [setFirst_cons_ne p l n m h1, setFirst_cons_ne p l n2 m2 h2,
          setFirst_cons_ne p (setFirst l n m) n2 m2 h2,
          setFirst_cons_ne p (setFirst l n2 m2) n m h1, ih]

theorem setFold_setFirst (qs : List (String × String)) :
    ∀ (l : List (String × String)) (n m : String),
      setFold qs (setFirst l n m) =
        if hasKey qs n then setFold qs l else setFirst (setFold qs l) n m := by
  induction qs with
  | nil => intro l n m; simp [setFold, hasKey]
  | cons q qs ih =>
    intro l n m
    by_cases hq : q.1 = n
    · have hk : hasKey (q :: qs) n = true := by simp [hasKey, hq]
      show setFold qs (setFirst (setFirst l n m) q.1 q.2) =
        if hasKey (q :: qs) n then setFold qs (setFirst l q.1 q.2)
        else setFirst (setFold qs (setFirst l q.1 q.2)) n m
      rw [hk, if_pos rfl, hq, setFirst_setFirst_same]
    · have hk : hasKey (q :: qs) n = hasKey qs n := by
        simp [hasKey, List.any_cons, show (q.1 == n) = false from by simp [hq]]
      show setFold qs (setFirst (setFirst l n m) q.1 q.2) =
        if hasKey (q :: qs) n then setFold qs (setFirst l q.1 q.2)
        else setFirst (setFold qs (setFirst l q.1 q.2)) n m
      rw [setFirst_comm l n m q.1 q.2 (fun he => hq he.symm), ih, hk]

theorem setFirst_append_left (l l2 : List (String × String)) (n m : String)
    (h : hasKey l n = true) :
    setFirst (l ++ l2) n m = setFirst l n m ++ l2 := by
  induction l with
  | nil => simp [hasKey] at h
  | cons p l ih =>
    by_cases hp : p.1 = n
    · simp [setFirst, hp]
    · have h2 : hasKey l n = true := by
        simpa [hasKey, List.any_cons, show (p.1 == n) = false from by simp [hp]] using h
      simp [setFirst, hp, ih h2]

theorem setFirst_append_fresh (l : List (String × String)) (n m : String)
    (h : hasKey l n = false) :
    setFirst (l ++ [(n, m)]) n m = l ++ [(n, m)] := by
  induction l with
  | nil => simp [setFirst]
  | cons p l ih =>
    have hp : ¬ p.1 = n := by
      intro he
      simp [hasKey, List.any_cons, he] at h
    have h2 : hasKey l n = false := by
      simpa [hasKey, List.any_cons, show (p.1 == n) = false from by simp [hp]] using h
    simp [setFirst, hp, ih h2]

theorem setFold_append (qs : List (String × String)) :
    ∀ (l l2 : List (String × String)),
      (∀ p ∈ qs, hasKey l p.1 = true) →
        setFold qs (l ++ l2) = setFold qs l ++ l2 := by
  induction qs with
  | nil => intro l l2 _; rfl
  | cons q qs ih =>
    intro l l2 h
    show setFold qs (setFirst (l ++ l2) q.1 q.2) = setFold qs (setFirst l q.1 q.2) ++ l2
    rw [setFirst_append_left l l2 q.1 q.2 (h q (List.mem_cons_self q qs))]
    exact ih _ l2 (fun p hp => by
      rw [hasKey_setFirst]; exact h p (List.mem_cons_of_mem q hp))

theorem setFold_obsSeed_absorb (ps : List (String × String)) :
    ∀ l : List (String × String), setFold ps (obsSeed ps l) = obsSeed ps l := by
  induction ps using List.reverseRecOn with
  | nil => intro l; rfl
  | append_singleton qs q ih =>
    intro l
    have hSeed : obsSeed (qs ++ [q]) l = obsUpsert (obsSeed qs l) q.1 q.2 := by
      simp [obsSeed, List.foldl_append]
    have hFold : ∀ x, setFold (qs ++ [q]) x = setFirst (setFold qs x) q.1 q.2 := by
      intro x; simp [setFold, List.foldl_append]
    rw [hSeed, hFold]
    by_cases hn : hasKey (obsSeed qs l) q.1
    · rw [show obsUpsert (obsSeed qs l) q.1 q.2 = setFirst (obsSeed qs l) q.1 q.2 from by
        simp [obsUpsert, hn]]
      rw [setFold_setFirst]
      by_cases hq : hasKey qs q.1 <;> simp [hq, ih l, setFirst_setFirst_same]
    · rw [show obsUpsert (obsSeed qs l) q.1 q.2 = obsSeed qs l ++ [(q.1, q.2)] from by
        simp [obsUpsert, hn]]
      rw [setFold_append qs _ _ (hasKey_obsSeed_saturated qs l), ih l,
        setFirst_append_fresh _ _ _ (by simpa using hn)]

theorem obsSeed_idem (ps : List (String × String)) (l : List (String × String)) :
    obsSeed ps (obsSeed ps l) = obsSeed ps l := by
  rw [obsSeed_eq_setFold ps (obsSeed ps l) (hasKey_obsSeed_saturated ps l)]
  exact setFold_obsSeed_absorb ps l

/-! ## Lemmas: validation helpers -/

theorem includesMode_cases (v : JSVal) (h : includesMode v = true) :
    v = .vstr "CALL" ∨ v = .vstr "OTP" := by
  simpa [includesMode] using h

theorem includesMode_truthy (v : JSVal) (h : includesMode v = true) :
    truthy v = true := by
  rcases includesMode_cases v h with h1 | h1 <;> subst h1 <;> rfl

theorem includesMode_toStringJS (v : JSVal) (h : includesMode v = true) :
    toStringJS v = "CALL" ∨ toStringJS v = "OTP" := by
  rcases includesMode_cases v h with h1 | h1 <;> subst h1
  · exact Or.inl rfl
  · exact Or.inr rfl

theorem normalize_falsy (v : JSVal) (h : truthy v = false) : normalize v = "" := by
  cases v with
  | vundefined => rfl
  | vnull => rfl
  | vstr s =>
    have hs : s = "" := by simpa [truthy] using h
    subst hs; rfl
  | vnum n =>
    have hn : n = 0 := by simpa [truthy] using h
    subst hn; rfl

theorem normalize_truthy (v : JSVal) (h : truthy v = true) :
    normalize v = trimJS (toStringJS v) := by
  unfold normalize jsOr
  rw [h]
  simp

/-! ## Lemmas: the mode invariant of every mutating operation -/

theorem mem_updateFirstMode (l : List Record) (n m : String) (t : Nat) :
    ∀ q ∈ updateFirstMode l n m t, q ∈ l ∨ q.mode = m := by
  induction l with
  | nil => intro q hq; cases hq
  | cons r rs ih =>
    intro q hq
    by_cases h : r.number = n
    · rw [show updateFirstMode (r :: rs) n m t = { r with mode := m, updatedAt := t } :: rs
        from by simp [updateFirstMode, h]] at hq
      cases hq with
      | head => exact Or.inr rfl
      | tail _ hmem => exact Or.inl (List.mem_cons_of_mem r hmem)
    · rw [show updateFirstMode (r :: rs) n m t = r :: updateFirstMode rs n m t
        from by simp [updateFirstMode, h]] at hq
      cases hq with
      | head => exact Or.inl (List.mem_cons_self r rs)
      | tail _ hmem =>
        rcases ih q hmem with h1 | h1
        · exact Or.inl (List.mem_cons_of_mem r h1)
        · exact Or.inr h1

theorem mem_updateFirstById (l : List Record) (i : Nat) (m : String) (t : Nat) :
    ∀ q ∈ updateFirstById l i m t, q ∈ l ∨ q.mode = m := by
  induction l with
  | nil => intro q hq; cases hq
  | cons r rs ih =>
    intro q hq
    by_cases h : r.id = i
    · rw [show updateFirstById (r :: rs) i m t = { r with mode := m, updatedAt := t } :: rs
        from by simp [updateFirstById, h]] at hq
      cases hq with
      | head => exact Or.inr rfl
      | tail _ hmem => exact Or.inl (List.mem_cons_of_mem r hmem)
    · rw [show updateFirstById (r :: rs) i m t = r :: updateFirstById rs i m t
        from by simp [updateFirstById, h]] at hq
      cases hq with
      | head => exact Or.inl (List.mem_cons_self r rs)
      | tail _ hmem =>
        rcases ih q hmem with h1 | h1
        · exact Or.inl (List.mem_cons_of_mem r h1)
        · exact Or.inr h1

theorem mem_removeFirstById (l : List Record) (i : Nat) :
    ∀ q ∈ removeFirstById l i, q ∈ l := by
  induction l with
  | nil => intro q hq; cases hq
  | cons r rs ih =>
    intro q hq
    by_cases h : r.id = i
    · rw [show removeFirstById (r :: rs) i = rs from by simp [removeFirstById, h]] at hq
      exact List.mem_cons_of_mem r hq
    · rw [show removeFirstById (r :: rs) i = r :: removeFirstById rs i
        from by simp [removeFirstById, h]] at hq
      cases hq with
      | head => exact List.mem_cons_self r rs
      | tail _ hmem => exact List.mem_cons_of_mem r (ih q hmem)

theorem modesOK_insertRecord (s : Store) (n m : String) (hs : ModesOK s)
    (hm : m = "CALL" ∨ m = "OTP") : ModesOK (insertRecord s n m).2 := by
  intro q hq
  simp only [insertRecord, List.mem_append, List.mem_singleton] at hq
  rcases hq with hq | hq
  · exact hs q hq
  · subst hq; exact hm

theorem modesOK_upsertMode (s : Store) (n m : String) (hs : ModesOK s)
    (hm : m = "CALL" ∨ m = "OTP") : ModesOK (upsertMode s n m) := by
  unfold upsertMode
  cases hf : findByNumber s n with
  | none => exact modesOK_insertRecord s n m hs hm
  | some r =>
    intro q hq
    rcases mem_updateFirstMode s.records n m s.now q hq with h1 | h1
    · exact hs q h1
    · rw [h1]; exact hm

theorem modesOK_seedList (ps : List (String × String)) :
    ∀ s : Store, ModesOK s → (∀ p ∈ ps, p.2 = "CALL" ∨ p.2 = "OTP") →
      ModesOK (seedList ps s) := by
  induction ps with
  | nil => intro s hs _; exact hs
  | cons p ps ih =>
    intro s hs hps
    exact ih _ (modesOK_upsertMode s p.1 p.2 hs (hps p (List.mem_cons_self p ps)))
      (fun q hq => hps q (List.mem_cons_of_mem p hq))

theorem modesOK_addNumber (s : Store) (number mode : JSVal) (hs : ModesOK s) :
    ModesOK (addNumber s number mode).2 := by
  unfold addNumber
  split
  · exact hs
  · split
    · exact hs
    · split
      · exact hs
      · split
        · exact hs
        · have hm : includesMode mode = true := by
            rcases Bool.eq_false_or_eq_true (includesMode mode) with h | h
            · exact h
            · simp_all
          exact modesOK_insertRecord s (normalize number) (toStringJS mode) hs
            (includesMode_toStringJS mode hm)

theorem modesOK_bulkStep (acc : BulkResults × Store) (item : BulkItem)
    (hs : ModesOK acc.2) : ModesOK (bulkStep acc item).2 := by
  unfold bulkStep
  split
  · exact hs
  · split
    · exact hs
    · split
      · exact hs
      · have hm : includesMode item.mode = true := by
          rcases Bool.eq_false_or_eq_true (includesMode item.mode) with h | h
          · exact h
          · simp_all
        have htr : truthy item.mode = true := includesMode_truthy item.mode hm
        have hjs : jsOr item.mode (.vstr "CALL") = item.mode := by
          unfold jsOr; rw [htr]; simp
        rw [hjs]
        exact modesOK_insertRecord acc.2 (normalize item.number)
          (toStringJS item.mode) hs (includesMode_toStringJS item.mode hm)

theorem modesOK_bulkFold (items : List BulkItem) :
    ∀ acc : BulkResults × Store, ModesOK acc.2 →
      ModesOK (items.foldl bulkStep acc).2 := by
  induction items with
  | nil => intro acc hs; exact hs
  | cons item items ih =>
    intro acc hs
    exact ih (bulkStep acc item) (modesOK_bulkStep acc item hs)

theorem modesOK_bulkAdd (s : Store) (items : List BulkItem) (hs : ModesOK s) :
    ModesOK (bulkAdd s items).2 :=
  modesOK_bulkFold items (⟨[], [], []⟩, s) hs

theorem modesOK_updateModeH (s : Store) (id mode : JSVal) (hs : ModesOK s) :
    ModesOK (updateModeH s id mode).2 := by
  unfold updateModeH
  split
  · exact hs
  · split
    · exact hs
    · split
      · exact hs
      · split
        · exact hs
        · have hm : includesMode mode = true := by
            rcases Bool.eq_false_or_eq_true (includesMode mode) with h | h
            · exact h
            · simp_all
          intro q hq
          rcases mem_updateFirstById s.records _ (toStringJS mode) s.now q hq with h1 | h1
          · exact hs q h1
          · rw [h1]; exact includesMode_toStringJS mode hm

theorem modesOK_deleteH (s : Store) (id : JSVal) (hs : ModesOK s) :
    ModesOK (deleteH s id).2 := by
  unfold deleteH
  split
  · exact hs
  · split
    · exact hs
    · split
      · exact hs
      · intro q hq
        exact hs q (mem_removeFirstById s.records _ q hq)

theorem seedNumbers_modes :
    ∀ p ∈ seedNumbers, p.2 = "CALL" ∨ p.2 = "OTP" := by decide

theorem modesOK_applyOp (s : Store) (op : Op) (hs : ModesOK s) :
    ModesOK (applyOp s op) := by
  cases op with
  | add n m => exact modesOK_addNumber s n m hs
  | bulk items => exact modesOK_bulkAdd s items hs
  | update i m => exact modesOK_updateModeH s i m hs
  | del i => exact modesOK_deleteH s i hs
  | seed => exact modesOK_seedList seedNumbers s hs seedNumbers_modes

theorem modesOK_runFold (ops : List Op) :
    ∀ s : Store, ModesOK s → ModesOK (ops.foldl applyOp s) := by
  induction ops with
  | nil => intro s hs; exact hs
  | cons op ops ih => intro s hs; exact ih _ (modesOK_applyOp s op hs)

theorem modesOK_runOps (ops : List Op) : ModesOK (runOps ops) :=
  modesOK_runFold ops emptyStore (fun r hr => absurd hr (List.not_mem_nil r))

theorem length_eq_countP_modes (l : List Record)
    (h : ∀ r ∈ l, r.mode = "CALL" ∨ r.mode = "OTP") :
    l.length = l.countP (fun r => r.mode == "CALL") +
      l.countP (fun r => r.mode == "OTP") := by
  induction l with
  | nil => rfl
  | cons r l ih =>
    have ht : ∀ q ∈ l, q.mode = "CALL" ∨ q.mode = "OTP" :=
      fun q hq => h q (List.mem_cons_of_mem r hq)
    rcases h r (List.mem_cons_self r l) with h1 | h1 <;>
      simp [List.countP_cons, h1, ih ht] <;> omega

/-! ## Lemmas: the frame of an update, the Lookup candidate order, the
aborting seeder -/

theorem map_updateId_of_not_mem (rs : List Record) (i : Nat) (m : String) (t : Nat)
    (h : ∀ q ∈ rs, ¬ q.id = i) :
    rs.map (fun r => if r.id = i then { r with mode := m, updatedAt := t } else r) = rs := by
  induction rs with
  | nil => rfl
  | cons r rs ih =>
    rw [List.map_cons, if_neg (h r (List.mem_cons_self r rs)),
      ih (fun q hq => h q (List.mem_cons_of_mem r hq))]

theorem updateFirstById_eq_map (l : List Record) (i : Nat) (m : String) (t : Nat)
    (h : (l.map Record.id).Nodup) :
    updateFirstById l i m t =
      l.map (fun r => if r.id = i then { r with mode := m, updatedAt := t } else r) := by
  induction l with
  | nil => rfl
  | cons r rs ih =>
    rw [List.map_cons] at h
    have h1 : r.id ∉ rs.map Record.id := (List.nodup_cons.mp h).1
    have h2 : (rs.map Record.id).Nodup := (List.nodup_cons.mp h).2
    by_cases hr : r.id = i
    · rw [show updateFirstById (r :: rs) i m t = { r with mode := m, updatedAt := t } :: rs
        from by simp [updateFirstById, hr], List.map_cons, if_pos hr]
      have hni : ∀ q ∈ rs, ¬ q.id = i := by
        intro q hq hqi
        exact h1 (by rw [hr, ← hqi]; exact List.mem_map_of_mem Record.id hq)
      rw [map_updateId_of_not_mem rs i m t hni]
    · rw [show updateFirstById (r :: rs) i m t = r :: updateFirstById rs i m t
        from by simp [updateFirstById, hr], List.map_cons, if_neg hr, ih h2]

theorem jsOr_pos (a b : JSVal) (h : truthy a = true) : jsOr a b = a := by
  unfold jsOr; exact if_pos h

theorem jsOr_neg (a b : JSVal) (h : truthy a = false) : jsOr a b = b := by
  unfold jsOr; exact if_neg (by simp [h])

theorem lookupCalledNumber_eq_firstTruthy (req : LookupReq) :
    lookupCalledNumber req =
      normalize (firstTruthy [req.bCalled, req.qCalled, req.bTo, req.qTo]) := by
  unfold lookupCalledNumber firstTruthy
  cases h1 : truthy req.bCalled with
  | true =>
    rw [jsOr_pos req.bCalled req.qCalled h1, jsOr_pos req.bCalled _ h1,
      List.find?_cons_of_pos _ h1]
    rfl
  | false =>
    rw [jsOr_neg req.bCalled req.qCalled h1, List.find?_cons_of_neg _ (by simp [h1])]
    cases h2 : truthy req.qCalled with
    | true =>
      rw [jsOr_pos req.qCalled _ h2, List.find?_cons_of_pos _ h2]
      rfl
    | false =>
      rw [jsOr_neg req.qCalled _ h2, List.find?_cons_of_neg _ (by simp [h2])]
      cases h3 : truthy req.bTo with
      | true =>
        rw [jsOr_pos req.bTo req.qTo h3, List.find?_cons_of_pos _ h3]
        rfl
      | false =>
        rw [jsOr_neg req.bTo req.qTo h3, List.find?_cons_of_neg _ (by simp [h3])]
        cases h4 : truthy req.qTo with
        | true => rw [List.find?_cons_of_pos _ h4]; rfl
        | false =>
          rw [List.find?_cons_of_neg _ (by simp [h4]), normalize_falsy req.qTo h4]
          rfl

end PhoneService

namespace PhoneService

/-! ## The claims -/

/-- Claim C1, counterexample: the claim says a failure upserting one pair
does not prevent the upsert of later pairs.  In `seedDB` the whole `for`
loop sits inside one `try/catch`, so when the upsert of `("A", "CALL")`
throws, the later pair `("B", "OTP")` — whose own upsert would not fail —
is never applied: the store stays empty. -/
theorem C1_counterexample :
    (fun p : String × String => p.1 == "A") ("B", "OTP") = false ∧
      (seedRunE (fun p : String × String => p.1 == "A")
        [("A", "CALL"), ("B", "OTP")] emptyStore).records.map Record.number = [] := by
  exact ⟨rfl, by decide⟩

/-- Claim C1, amended: the Seeder applies `upsertMode` to the pairs in list
order up to the first failing pair; the failing pair and every later pair
are not applied in that run (the single `try/catch` around the loop
swallows the error after logging it). -/
theorem C1_aborts_at_first_failure (fails : String × String → Bool)
    (p : String × String) (rs : List (String × String)) (h2 : fails p = true) :
    ∀ (qs : List (String × String)) (s : Store), (∀ q ∈ qs, fails q = false) →
      seedRunE fails (qs ++ p :: rs) s = seedList qs s := by
  intro qs
  induction qs with
  | nil =>
    intro s h1
    show seedRunE fails (p :: rs) s = s
    unfold seedRunE
    rw [h2]
    rfl
  | cons q qs ih =>
    intro s h1
    show seedRunE fails (q :: (qs ++ p :: rs)) s = seedList (q :: qs) s
    unfold seedRunE
    rw [h1 q (List.mem_cons_self q qs)]
    exact ih (upsertMode s q.1 q.2) (fun q2 hq2 => h1 q2 (List.mem_cons_of_mem q hq2))

/-- Witness for C1's amended theorem at a concrete failing run. -/
theorem C1_witness :
    seedRunE (fun p : String × String => p.1 == "A")
        ([("B", "CALL")] ++ ("A", "OTP") :: [("C", "CALL")]) emptyStore =
      seedList [("B", "CALL")] emptyStore :=
  C1_aborts_at_first_failure (fun p : String × String => p.1 == "A")
    ("A", "OTP") [("C", "CALL")] (by decide) [("B", "CALL")] emptyStore (by decide)

/-- Claim C2: an Add request whose number normalizes to the empty string and
whose mode is valid is rejected with a 400 client error and the store is
unchanged (no record inserted). -/
theorem C2_add_empty_normalized_rejected (s : Store) (number mode : JSVal)
    (h1 : normalize number = "") (h2 : includesMode mode = true) :
    (∃ msg, (addNumber s number mode).1 = .err 400 msg) ∧
      (addNumber s number mode).2 = s := by
  cases htr : truthy number with
  | false =>
    have hreq : (!truthy number || !truthy mode) = true := by rw [htr]; rfl
    unfold addNumber
    rw [if_pos hreq]
    exact ⟨⟨"Number and mode are required", rfl⟩, rfl⟩
  | true =>
    have hreq : (!truthy number || !truthy mode) = false := by
      rw [htr, includesMode_truthy mode h2]; rfl
    unfold addNumber
    rw [if_neg (by simp [hreq]), if_pos h1]
    exact ⟨⟨"Invalid number format", rfl⟩, rfl⟩

/-- Witness for C2 at a whitespace-only number with a valid mode. -/
theorem C2_witness :
    (∃ msg, (addNumber emptyStore (.vstr "   ") (.vstr "CALL")).1 = .err 400 msg) ∧
      (addNumber emptyStore (.vstr "   ") (.vstr "CALL")).2 = emptyStore :=
  C2_add_empty_normalized_rejected emptyStore (.vstr "   ") (.vstr "CALL")
    (by decide) (by decide)

/-- Claim C3: for every seed-pair list and every initial store, running the
Seeder twice produces the same record count and the same `(number, mode)`
observation of every record as running it once. -/
theorem C3_seeder_idempotent (ps : List (String × String)) (s : Store) :
    (seedList ps (seedList ps s)).records.length = (seedList ps s).records.length ∧
      (seedList ps (seedList ps s)).records.map (fun r => (r.number, r.mode)) =
        (seedList ps s).records.map (fun r => (r.number, r.mode)) := by
  have h : obs (seedList ps (seedList ps s)) = obs (seedList ps s) := by
    rw [obs_seedList, obs_seedList, obsSeed_idem]
  refine ⟨?_, h⟩
  have := congrArg List.length h
  simpa [obs] using this

/-- Claim C4, counterexample: the claim says a BulkAdd item that omits
`mode` (with a fresh, non-empty number) is inserted with the default mode
CALL.  The handler checks `["CALL", "OTP"].includes(item.mode)` before the
`item.mode || "CALL"` default is ever evaluated, so the item is classified
as an "Invalid mode" error entry and nothing is inserted. -/
theorem C4_counterexample :
    (bulkAdd emptyStore [⟨.vstr "+15551234567", .vundefined⟩]).1 =
        ⟨[], [(.vstr "+15551234567", "Invalid mode")], []⟩ ∧
      (bulkAdd emptyStore [⟨.vstr "+15551234567", .vundefined⟩]).2 = emptyStore := by
  decide

/-- Claim C4, amended: a BulkAdd item that omits `mode` is classified as an
error entry ("Invalid mode") and the store is left unchanged, regardless of
its number being fresh; the CALL default in `item.mode || "CALL"` is
unreachable for omitted modes. -/
theorem C4_omitted_mode_is_error (acc : BulkResults × Store) (item : BulkItem)
    (h1 : normalize item.number ≠ "") (h2 : item.mode = .vundefined) :
    bulkStep acc item =
      ({ acc.1 with errors := acc.1.errors ++ [(item.number, "Invalid mode")] }, acc.2) := by
  unfold bulkStep
  rw [if_neg h1, if_pos (by rw [h2]; rfl)]

/-- Witness for C4's amended theorem on a concrete mode-less item. -/
theorem C4_witness :
    bulkStep (⟨[], [], []⟩, emptyStore) ⟨.vstr "+15551234567", .vundefined⟩ =
      (⟨[], [(.vstr "+15551234567", "Invalid mode")], []⟩, emptyStore) :=
  C4_omitted_mode_is_error (⟨[], [], []⟩, emptyStore)
    ⟨.vstr "+15551234567", .vundefined⟩ (by decide) rfl

/-- Claim C5, counterexample: the claim says the queried number is the first
candidate whose NORMALIZED value is non-empty, so a whitespace-only
`Called` should fall through to `To`.  The code selects by raw JS
truthiness (`rawCalled || rawTo`) before normalizing: `Called = " "` is
truthy, wins the selection, and normalizes to `""`; the `To` candidate
`"+15551234567"` is never consulted. -/
theorem C5_counterexample :
    (lookupHandler emptyStore
        ⟨.vstr " ", .vundefined, .vstr "+15551234567", .vundefined,
          .vundefined, .vundefined, .vundefined, .vundefined⟩).calledNumber = "" ∧
      normalize (.vstr "+15551234567") = "+15551234567" ∧
      ("" : String) ≠ "+15551234567" := by
  decide

/-- Claim C5, amended: the number queried by Lookup is the normalization of
the first candidate in priority order (`body.Called`, `query.Called`,
`body.To`, `query.To`) that is truthy as a raw JS value; normalization
happens only after the selection, so a whitespace-only earlier candidate
shadows a later non-empty one. -/
theorem C5_first_truthy_candidate (s : Store) (req : LookupReq) :
    (lookupHandler s req).calledNumber =
      normalize (firstTruthy [req.bCalled, req.qCalled, req.bTo, req.qTo]) :=
  lookupCalledNumber_eq_firstTruthy req

/-- Claim C6, counterexample: the claim says `normalize` applied to any
non-null primitive equals that primitive coerced to a string (trimmed).
The number `0` is falsy in JS, so `(num || "")` replaces it with `""`:
`normalize(0)` is `""`, not `"0"`. -/
theorem C6_counterexample :
    normalize (.vnum 0) ≠ trimJS (toStringJS (.vnum 0)) ∧
      normalize (.vnum 0) = "" ∧ toStringJS (.vnum 0) = "0" := by
  decide

/-- Claim C6, amended: `normalize` is a pure total function; on a truthy
input it coerces to a string and trims leading/trailing whitespace, and on
every falsy input (absent, null, the empty string, the number 0) it yields
the empty string; in particular `normalize(" +1 555 ") = "+1 555"`,
`normalize(undefined) = ""` and `normalize(123) = "123"`. -/
theorem C6_normalize_spec :
    (∀ v : JSVal, normalize v = if truthy v then trimJS (toStringJS v) else "") ∧
      normalize (.vstr " +1 555 ") = "+1 555" ∧
      normalize .vundefined = "" ∧
      normalize (.vnum 123) = "123" := by
  refine ⟨fun v => ?_, by decide, by decide, by decide⟩
  cases h : truthy v with
  | true => rw [if_pos rfl]; exact normalize_truthy v h
  | false => rw [if_neg (by simp)]; exact normalize_falsy v h

/-- Claim C7: a well-formed Add request (truthy number, valid mode,
non-empty normalized number) for a number already present in the store is
rejected with the 400 duplicate error and the store — count and every
record — is left exactly as it was. -/
theorem C7_duplicate_add_conflict (s : Store) (number mode : JSVal) (r : Record)
    (h1 : truthy number = true) (h2 : includesMode mode = true)
    (h3 : normalize number ≠ "")
    (h4 : findByNumber s (normalize number) = some r) :
    addNumber s number mode = (.err 400 "Number already exists", s) := by
  have hreq : (!truthy number || !truthy mode) = false := by
    rw [h1, includesMode_truthy mode h2]; rfl
  have hmode : (!includesMode mode) = false := by rw [h2]; rfl
  unfold addNumber
  rw [if_neg (by simp [hreq]), if_neg h3, if_neg (by simp [hmode]), h4]

/-- Witness for C7: a second Add of an existing number on a one-record
store. -/
theorem C7_witness :
    addNumber ⟨[⟨0, "+1555", "CALL", 0, 0⟩], 1, 1⟩ (.vstr "+1555") (.vstr "OTP") =
      (.err 400 "Number already exists", ⟨[⟨0, "+1555", "CALL", 0, 0⟩], 1, 1⟩) :=
  C7_duplicate_add_conflict ⟨[⟨0, "+1555", "CALL", 0, 0⟩], 1, 1⟩
    (.vstr "+1555") (.vstr "OTP") ⟨0, "+1555", "CALL", 0, 0⟩
    (by decide) (by decide) (by decide) (by decide)

/-- Claim C8: a Lookup whose queried number matches no record succeeds with
the normalized number, the sentinel mode UNKNOWN, and the `From` / `CallSid`
inputs passed through unchanged. -/
theorem C8_lookup_miss_unknown (s : Store) (req : LookupReq)
    (h : findByNumber s (lookupCalledNumber req) = none) :
    lookupHandler s req =
      ⟨lookupCalledNumber req, "UNKNOWN", jsOr req.bFrom req.qFrom,
        jsOr req.bCallSid req.qCallSid⟩ := by
  unfold lookupHandler
  rw [h]

/-- Witness for C8 on the empty store. -/
theorem C8_witness :
    lookupHandler emptyStore
        ⟨.vstr "+1", .vundefined, .vundefined, .vundefined, .vstr "+2",
          .vundefined, .vstr "CA123", .vundefined⟩ =
      ⟨"+1", "UNKNOWN", .vstr "+2", .vstr "CA123"⟩ :=
  C8_lookup_miss_unknown emptyStore
    ⟨.vstr "+1", .vundefined, .vundefined, .vundefined, .vstr "+2",
      .vundefined, .vstr "CA123", .vundefined⟩ (by decide)

/-- Claim C9: a successful UpdateMode changes exactly the matched record's
`mode` and `updatedAt`, keeping its `number`, `id` and `createdAt`, and
leaves every other record (and the id counter) untouched. -/
theorem C9_update_mode_frame (s : Store) (idv mode : JSVal) (i : Nat) (r : Record)
    (htr : truthy idv = true) (hc : castId idv = some i)
    (hm : includesMode mode = true)
    (hf : s.records.find? (fun q => q.id == i) = some r)
    (hn : (s.records.map Record.id).Nodup) :
    (updateModeH s idv mode).2 =
      ⟨s.records.map (fun q => if q.id = i then
          { q with mode := toStringJS mode, updatedAt := s.now } else q),
        s.nextId, s.now + 1⟩ := by
  have hreq : (!truthy idv || !truthy mode) = false := by
    rw [htr, includesMode_truthy mode hm]; rfl
  have hmode : (!includesMode mode) = false := by rw [hm]; rfl
  unfold updateModeH
  rw [if_neg (by simp [hreq]), if_neg (by simp [hmode]), hc]
  dsimp only
  rw [hf]
  show (⟨updateFirstById s.records i (toStringJS mode) s.now,
    s.nextId, s.now + 1⟩ : Store) = _
  rw [updateFirstById_eq_map s.records i (toStringJS mode) s.now hn]

/-- Witness for C9 on a two-record store: only record 1 changes, and only
its mode and updatedAt. -/
theorem C9_witness :
    (updateModeH ⟨[⟨0, "+1", "CALL", 0, 0⟩, ⟨1, "+2", "CALL", 0, 0⟩], 2, 5⟩
        (.vstr "1") (.vstr "OTP")).2 =
      ⟨[⟨0, "+1", "CALL", 0, 0⟩, ⟨1, "+2", "OTP", 0, 5⟩], 2, 6⟩ := by
  rw [C9_update_mode_frame ⟨[⟨0, "+1", "CALL", 0, 0⟩, ⟨1, "+2", "CALL", 0, 0⟩], 2, 5⟩
    (.vstr "1") (.vstr "OTP") 1 ⟨1, "+2", "CALL", 0, 0⟩
    (by decide) (by decide) (by decide) (by decide) (by decide)]
  decide

/-- Claim C10: in every store reachable from the empty store through the
public operations (Add, BulkAdd, UpdateMode, Delete, Seeder), every
record's mode is CALL or OTP, and hence Stats satisfies
`total = call + otp`. -/
theorem C10_mode_invariant_and_stats (ops : List Op) :
    (∀ r ∈ (runOps ops).records, r.mode = "CALL" ∨ r.mode = "OTP") ∧
      (statsOf (runOps ops)).total =
        (statsOf (runOps ops)).call + (statsOf (runOps ops)).otp := by
  have h := modesOK_runOps ops
  exact ⟨h, length_eq_countP_modes (runOps ops).records h⟩

end PhoneService
